import Mathlib

/-!
Verification development for the rdr-scripts paper-collection scripts.

The definitions below are a shallow embedding of the Python sources under
src/venue/.  Pure string manipulation is translated function by function;
network calls are modelled by passing the (parsed) response in as an
argument, and the observable side effects the specification speaks about
(HTTP requests, rate-limit sleeps, file writes and renames) are made
explicit as event traces or explicit file-system states.

Modelling conventions, used throughout:
* Python strings are Lean String / List Char.  The character predicates
  str.isalnum / str.isspace / str.lower are modelled by Char.isAlphanum,
  Char.isWhitespace and Char.toLower, which agree with Python on ASCII
  input (the scripts process ASCII titles and author names).
* Python float arithmetic on similarity scores is modelled by exact
  rationals (ℚ); difflib computes 2*M/T from integer M and T, which mkRat
  represents exactly.
* Python dicts keyed by strings are association lists that keep insertion
  order and overwrite in place, matching CPython dict semantics.
* Fallible library calls (json.loads, HTTP requests) are modelled by
  Option-valued inputs: none stands for the exceptional outcome that the
  Python code catches.
-/

/-! ## Python string helpers -/

/-- Model of Python str.strip() on a character list: whitespace removed from
both ends. -/
def pyStripL (l : List Char) : List Char :=
  ((l.dropWhile Char.isWhitespace).reverse.dropWhile Char.isWhitespace).reverse

/-- Model of Python str.strip() on strings. -/
def pyStrip (s : String) : String :=
  String.mk (pyStripL s.toList)

/-- Model of Python str.lower() for ASCII input. -/
def pyLower (s : String) : String :=
  String.mk (s.toList.map Char.toLower)

/-- Model of Python str.startswith. -/
def pyStartsWith (s pre : String) : Bool :=
  pre.toList.isPrefixOf s.toList

/-- Accumulator worker for wordsL. -/
def wordsAux : List Char → List Char → List (List Char)
  | [], acc => if acc.isEmpty then [] else [acc.reverse]
  | c :: cs, acc =>
    if c.isWhitespace then
      if acc.isEmpty then wordsAux cs [] else acc.reverse :: wordsAux cs []
    else wordsAux cs (c :: acc)

/-- Model of Python str.split() with no argument: split on whitespace runs,
dropping empty pieces. -/
def wordsL (l : List Char) : List (List Char) :=
  wordsAux l []

/-- Accumulator worker for splitCommaL. -/
def splitCommaAux : List Char → List Char → List (List Char)
  | [], acc => [acc.reverse]
  | c :: cs, acc =>
    if c = ',' then acc.reverse :: splitCommaAux cs []
    else splitCommaAux cs (c :: acc)

/-- Model of Python str.split(",") : pieces between commas, empties kept. -/
def splitCommaL (l : List Char) : List (List Char) :=
  splitCommaAux l []

/-- Shared body of normalize_title and normalize_author_name in
src/venue/iros24.py: keep only alphanumeric and whitespace characters,
lower-case them, then collapse whitespace runs to single spaces
(the Python code is a filtered join followed by ' '.join(x.split())). -/
def pyNormalizeL (l : List Char) : List Char :=
  List.intercalate [' ']
    (wordsL (l.filterMap fun c =>
      if c.isAlphanum || c.isWhitespace then some c.toLower else none))

/-! ## difflib.SequenceMatcher ratio

The iros24 script compares titles with
difflib.SequenceMatcher(None, a, b).ratio().  The functions below model
that library call for the inputs the script feeds it: no junk predicate,
and strings shorter than 200 characters, so the autojunk popularity
heuristic never fires.  ratio() is 2*M/T where M is the total size of the
matching blocks and T the sum of the lengths. -/

/-- Length of the common prefix of two character lists. -/
def commonRunLen : List Char → List Char → Nat
  | a :: as, b :: bs => if a = b then commonRunLen as bs + 1 else 0
  | _, _ => 0

/-- Model of SequenceMatcher.find_longest_match on whole strings: the
longest common block, ties broken by the smallest start in a, then the
smallest start in b — exactly the block the library's first-strict-win scan
reports.  Returns (i, j, size). -/
def findLongestMatch (a b : List Char) : Nat × Nat × Nat :=
  (List.range a.length).foldl (fun best i =>
    (List.range b.length).foldl (fun best j =>
      let k := commonRunLen (a.drop i) (b.drop j)
      if k > best.2.2 then (i, j, k) else best) best) (0, 0, 0)

/-- Total size M of the matching blocks: the longest match is found and the
two flanks are processed recursively, as in get_matching_blocks.  The fuel
argument only bounds the recursion; a.length + 1 is always enough because
each recursive call strictly shrinks a. -/
def matchTotal : Nat → List Char → List Char → Nat
  | 0, _, _ => 0
  | fuel + 1, a, b =>
    let m := findLongestMatch a b
    if m.2.2 = 0 then 0
    else
      matchTotal fuel (a.take m.1) (b.take m.2.1) + m.2.2 +
        matchTotal fuel (a.drop (m.1 + m.2.2)) (b.drop (m.2.1 + m.2.2))

/-- Model of SequenceMatcher(None, a, b).ratio() as an exact rational:
2*M/T, and 1 when both strings are empty, as in difflib. -/
def ratioQ (a b : List Char) : ℚ :=
  let t := a.length + b.length
  if t = 0 then 1 else mkRat (2 * (matchTotal (a.length + 1) a b : Int)) t

/-! ## src/venue/iros24.py — the arXiv resolver -/

/-- normalize_title from src/venue/iros24.py. -/
def normalize_title (title : String) : String :=
  String.mk (pyNormalizeL title.toList)

/-- calculate_title_similarity from src/venue/iros24.py: the
SequenceMatcher ratio of the two normalized titles. -/
def calculate_title_similarity (title1 title2 : String) : ℚ :=
  ratioQ (normalize_title title1).toList (normalize_title title2).toList

/-- normalize_author_name from src/venue/iros24.py (same body as
normalize_title). -/
def normalize_author_name (name : String) : String :=
  String.mk (pyNormalizeL name.toList)

/-- get_last_names from src/venue/iros24.py: split the author string on
commas, strip each piece, take the last whitespace-delimited token of each
non-empty piece, normalize it, and collect the results into a set. -/
def get_last_names (authors_str : String) : Finset String :=
  let authors := (splitCommaL authors_str.toList).map pyStripL
  authors.foldl (fun acc author =>
    match (wordsL (pyStripL author)).getLast? with
    | none => acc
    | some lastPart => insert (normalize_author_name (String.mk lastPart)) acc) ∅

/-- One link element of an arXiv Atom entry: its title attribute (absent or
present) and its href. -/
structure AtomLink where
  titleAttr : Option String
  href : String
deriving DecidableEq

/-- One parsed entry of the arXiv Atom feed, holding exactly the pieces
search_arxiv_for_paper reads: the title text, the author name texts (none
when the entry has no author element), the link elements, and the summary
text (none when the entry has no summary element). -/
structure AtomEntry where
  title : String
  authors : Option (List String)
  links : List AtomLink
  summary : Option String
deriving DecidableEq

/-- PDF-link extraction inside search_arxiv_for_paper: the href of the
first link whose title attribute is 'pdf'. -/
def entryPdfUrl (e : AtomEntry) : Option String :=
  (e.links.find? fun l => l.titleAttr == some "pdf").map (fun l => l.href)

/-- Abstract extraction inside search_arxiv_for_paper: the stripped summary
text if a summary element exists. -/
def entryAbstract (e : AtomEntry) : Option String :=
  e.summary.map pyStrip

/-- Last-name set of an arXiv entry's authors, as computed in
search_arxiv_for_paper: get_last_names(', '.join(arxiv_authors)). -/
def arxivLastNames (names : List String) : Finset String :=
  get_last_names (String.intercalate ", " names)

/-- The candidate loop of search_arxiv_for_paper (src/venue/iros24.py,
lines 168-210): entries are scanned in feed order; an entry whose title
similarity is below the threshold is skipped, an entry without an author
element is skipped, an entry whose last-name set does not intersect the
IROS last-name set is skipped, and the first surviving entry's PDF link and
abstract are returned.  An exhausted scan yields (None, None). -/
def searchEntries (paperTitle : String) (irosLastNames : Finset String) (minSim : ℚ) :
    List AtomEntry → Option String × Option String
  | [] => (none, none)
  | e :: rest =>
    if calculate_title_similarity paperTitle e.title < minSim then
      searchEntries paperTitle irosLastNames minSim rest
    else
      match e.authors with
      | none => searchEntries paperTitle irosLastNames minSim rest
      | some names =>
        if irosLastNames ∩ arxivLastNames names = ∅ then
          searchEntries paperTitle irosLastNames minSim rest
        else (entryPdfUrl e, entryAbstract e)

/-- Both hard gates of the resolver for one entry, as a boolean: title
similarity at least the threshold, an author element present, and a
non-empty last-name intersection. -/
def entryPassesB (paperTitle : String) (irosLastNames : Finset String) (minSim : ℚ)
    (e : AtomEntry) : Bool :=
  !decide (calculate_title_similarity paperTitle e.title < minSim) &&
    (match e.authors with
     | none => false
     | some names => !decide (irosLastNames ∩ arxivLastNames names = ∅))

/-- Observable events of one search_arxiv_for_paper call: the HTTP request
to the arXiv API and the unconditional courtesy sleep. -/
inductive FetchEv where
  | httpGet
  | sleepFor (seconds : Nat)
deriving DecidableEq

/-- search_arxiv_for_paper from src/venue/iros24.py, with the transport
folded into the response argument: none models a requests exception (the
function returns (None, None) at once), some none models a response whose
body fails XML parsing (caught, (None, None)), and some (some entries)
models a parsed feed.  The first component is the event trace: the HTTP
call, then — only when the call did not raise — the 3-second courtesy
sleep, which precedes all parsing and matching. -/
def search_arxiv_for_paper (paperTitle paperAuthors : String)
    (minSim : ℚ := mkRat 4 5)
    (response : Option (Option (List AtomEntry))) :
    List FetchEv × (Option String × Option String) :=
  match response with
  | none => ([FetchEv.httpGet], (none, none))
  | some body =>
    ([FetchEv.httpGet, FetchEv.sleepFor 3],
      match body with
      | none => (none, none)
      | some entries => searchEntries paperTitle (get_last_names paperAuthors) minSim entries)

/-! ## A small JSON value model

JSON values as loaded by json.load / resp.json().  The mutual encoding of
arrays and objects keeps every recursion structural.  Python None is
Json.null; a Python dict is an insertion-ordered field list with unique
keys (json.loads keeps one binding per key). -/

mutual
inductive Json where
  | null
  | bool (b : Bool)
  | num (n : Int)
  | str (s : String)
  | arr (elems : JsonList)
  | obj (fields : JsonObj)
deriving DecidableEq
inductive JsonList where
  | nil
  | cons (hd : Json) (tl : JsonList)
deriving DecidableEq
inductive JsonObj where
  | nil
  | cons (key : String) (val : Json) (tl : JsonObj)
deriving DecidableEq
end

/-- Turn a JsonList into a Lean list. -/
def JsonList.toList : JsonList → List Json
  | .nil => []
  | .cons h t => h :: t.toList

/-- Build a JsonList from a Lean list. -/
def JsonList.ofList : List Json → JsonList
  | [] => .nil
  | x :: xs => .cons x (JsonList.ofList xs)

/-- Build a JsonObj from a key-value list. -/
def JsonObj.ofList : List (String × Json) → JsonObj
  | [] => .nil
  | (k, v) :: xs => .cons k v (JsonObj.ofList xs)

/-- Keys of a JsonObj, in order (what Python yields when iterating a dict). -/
def JsonObj.keys : JsonObj → List String
  | .nil => []
  | .cons k _ t => k :: JsonObj.keys t

/-- Field lookup in a JsonObj: Python dict indexing / dict.get. -/
def jObjGet : JsonObj → String → Option Json
  | .nil, _ => none
  | .cons k v t, key => if k = key then some v else jObjGet t key

/-- Python dict.get(key) : the value, or None when the key is absent. -/
def jGetD (fs : JsonObj) (key : String) : Json :=
  (jObjGet fs key).getD Json.null

/-- Python dict.get(key, default). -/
def jGetOr (fs : JsonObj) (key : String) (dflt : Json) : Json :=
  (jObjGet fs key).getD dflt

/-- Python truthiness of a JSON value: None, False, 0, empty string, empty
list and empty dict are falsy, everything else truthy. -/
def jtruthy : Json → Bool
  | .null => false
  | .bool b => b
  | .num n => n != 0
  | .str s => s != ""
  | .arr .nil => false
  | .arr _ => true
  | .obj .nil => false
  | .obj _ => true

/-- Hashability of a JSON value as a Python dict key: lists and dicts raise
TypeError when used as keys. -/
def jsonHashable : Json → Bool
  | .arr _ => false
  | .obj _ => false
  | _ => true

/-! ## Ordered association lists (Python dict / file-system model) -/

/-- First-match lookup in an association list. -/
def alookup {α β : Type} [DecidableEq α] : List (α × β) → α → Option β
  | [], _ => none
  | (k, v) :: rest, key => if k = key then some v else alookup rest key

/-- Remove every binding of a key. -/
def aremove {α β : Type} [DecidableEq α] : List (α × β) → α → List (α × β)
  | [], _ => []
  | (k, v) :: rest, key =>
    if k = key then aremove rest key else (k, v) :: aremove rest key

/-- Python dict assignment d[k] = v: overwrite in place when the key
exists (its position is kept), otherwise append at the end. -/
def aupsert {α β : Type} [DecidableEq α] : List (α × β) → α → β → List (α × β)
  | [], key, val => [(key, val)]
  | (k, v) :: rest, key, val =>
    if k = key then (k, val) :: rest else (k, v) :: aupsert rest key val

/-- Model of os.rename(old, new) on a path-to-bytes file system: the bytes
move unchanged to the new name, replacing any file already there; a missing
source leaves the file system unchanged (the callers below only rename
files they just read). -/
def fsRename (fs : List (String × String)) (oldName newName : String) :
    List (String × String) :=
  match alookup fs oldName with
  | none => fs
  | some bytes => (newName, bytes) :: aremove (aremove fs oldName) newName

/-! ## src/venue/cvpr.py — Paper, PaperDatabase -/

/-- The cvpr Paper record as it lives in the store.  Fields hold raw JSON
values because from_dict copies whatever the persisted document contains
without type checks; absent optional fields are Json.null. -/
structure CPaper where
  title : Json
  authors : Json
  paper_id : Json
  pdf_url : Json
  arxiv_url : Json
  abstract : Json
  supplemental_url : Json
deriving DecidableEq

/-- Paper.from_dict from src/venue/cvpr.py: data['title'] and
data['authors'] are required (a missing key raises KeyError, a non-dict
raises TypeError — both modelled as none), the remaining fields fall back
to None via dict.get. -/
def fromDictCvpr : Json → Option CPaper
  | Json.obj fs =>
    match jObjGet fs "title", jObjGet fs "authors" with
    | some t, some a =>
      some ⟨t, a, jGetD fs "paper_id", jGetD fs "pdf_url", jGetD fs "arxiv_url",
        jGetD fs "abstract", jGetD fs "supplemental_url"⟩
    | _, _ => none
  | _ => none

/-- Paper.to_dict from src/venue/cvpr.py, with its exact key order. -/
def toDictCvpr (p : CPaper) : Json :=
  Json.obj (JsonObj.ofList
    [("paper_id", p.paper_id), ("title", p.title), ("authors", p.authors),
     ("pdf_url", p.pdf_url), ("arxiv_url", p.arxiv_url),
     ("abstract", p.abstract), ("supplemental_url", p.supplemental_url)])

/-- What Python iteration over a json.load result yields: list elements for
a list, keys for a dict, one-character strings for a string, and a
TypeError (none) for the scalars. -/
def iterElems : Json → Option (List Json)
  | .arr xs => some xs.toList
  | .obj fs => some (fs.keys.map Json.str)
  | .str s => some (s.toList.map fun c => Json.str (String.mk [c]))
  | _ => none

/-- The record-loading loop of PaperDatabase._load_existing_papers
(src/venue/cvpr.py, lines 94-98): records are converted and inserted under
their title key until one raises (missing required key, non-dict record, or
unhashable title).  Returns the mapping built so far and whether an
exception escaped the loop into the except handler. -/
def loadLoopCvpr : List Json → List (Json × CPaper) → List (Json × CPaper) × Bool
  | [], m => (m, false)
  | d :: rest, m =>
    match fromDictCvpr d with
    | none => (m, true)
    | some p =>
      if jsonHashable p.title then loadLoopCvpr rest (aupsert m p.title p)
      else (m, true)

/-- Result of constructing the store: the in-memory mapping and the file
system after the load. -/
structure LoadResult where
  papers : List (Json × CPaper)
  fs : List (String × String)
deriving DecidableEq

/-- Name of the quarantine copy: filename + '.bak.' + timestamp. -/
def backupName (filename ts : String) : String :=
  filename ++ ".bak." ++ ts

/-- PaperDatabase._load_existing_papers from src/venue/cvpr.py (lines
87-105).  decode models json.load (none = the parse raised); ts is the
timestamp string used in the backup name.  A missing file leaves an empty
store.  Any exception inside the try — a failed parse, a TypeError from
iterating a scalar, or a bad record mid-loop — is caught, and the file is
renamed to the timestamped backup; records loaded before the failure stay
in the mapping.  The function is total: construction never raises. -/
def loadExistingPapers (decode : String → Option Json) (ts filename : String)
    (fs : List (String × String)) : LoadResult :=
  match alookup fs filename with
  | none => ⟨[], fs⟩
  | some bytes =>
    match decode bytes with
    | none => ⟨[], fsRename fs filename (backupName filename ts)⟩
    | some data =>
      match iterElems data with
      | none => ⟨[], fsRename fs filename (backupName filename ts)⟩
      | some ds =>
        let r := loadLoopCvpr ds []
        if r.2 then ⟨r.1, fsRename fs filename (backupName filename ts)⟩
        else ⟨r.1, fs⟩

/-- In-memory mapping plus the persisted document.  The document is kept as
the list of to_dict values handed to json.dump; json.dump is a
deterministic function of that list, so equal documents mean byte-for-byte
equal files. -/
structure CvprDB where
  papers : List (Json × CPaper)
  storedDoc : List Json
deriving DecidableEq

/-- PaperDatabase._save_to_file from src/venue/cvpr.py: the full mapping is
re-serialized in insertion order. -/
def saveToFile (papers : List (Json × CPaper)) : List Json :=
  papers.map fun kv => toDictCvpr kv.2

/-- PaperDatabase.save_paper from src/venue/cvpr.py: upsert under the title
key, then rewrite the whole document synchronously.  none models the
TypeError Python raises when the title is unhashable. -/
def save_paper (db : CvprDB) (p : CPaper) : Option CvprDB :=
  if jsonHashable p.title then
    let papers := aupsert db.papers p.title p
    some ⟨papers, saveToFile papers⟩
  else none

/-- The completeness test of process_paper_element (src/venue/cvpr.py,
lines 224-228): existing_paper.abstract and existing_paper.pdf_url, under
Python truthiness. -/
def cvprHasAllData (p : CPaper) : Bool :=
  jtruthy p.abstract && jtruthy p.pdf_url

/-- The skip decision of process_paper_element for a title: skip only when
the title is stored and its record passes cvprHasAllData. -/
def cvprShouldSkip (papers : List (Json × CPaper)) (title : Json) : Bool :=
  match alookup papers title with
  | some p => cvprHasAllData p
  | none => false

/-- Modelled from the spec: the completeness invariant as the specification
words it — a non-empty abstractText and at least one non-empty link among
the primary (arXiv) link and the PDF link.  Stated for comparison with
cvprHasAllData, which is what the code actually tests. -/
def specIsComplete (p : CPaper) : Bool :=
  jtruthy p.abstract && (jtruthy p.pdf_url || jtruthy p.arxiv_url)

/-- The iros24 Paper record (src/venue/iros24.py). -/
structure IrosPaper where
  paper_no : String
  authors : String
  title : String
  arxiv_pdf : Option String
  arxiv_abstract : Option String
deriving DecidableEq

/-- Python truthiness of an optional string field. -/
def pyTruthyOptStr : Option String → Bool
  | none => false
  | some s => s != ""

/-- The skip decision of main in src/venue/iros24.py (lines 262-265):
existing_paper and existing_paper.arxiv_pdf — a stored paper is skipped
exactly when its arxiv_pdf field is truthy; the abstract plays no part. -/
def irosShouldSkip (existing : Option IrosPaper) : Bool :=
  match existing with
  | none => false
  | some p => pyTruthyOptStr p.arxiv_pdf

/-! ## src/venue/cvpr.py — RetryingSession

Model of the urllib3 Retry machinery that RetryingSession configures with
Retry(total=retries, read=retries, connect=retries, backoff_factor=1.5,
status_forcelist=(500, 502, 503, 504)).  Each failed attempt decrements
total plus the counter of its failure class (the status counter is left
None, so server-error retries are bounded by total alone); the retry object
is exhausted once a tracked counter is negative, and exhaustion raises
MaxRetryError to the caller.  Backoff sleeping affects timing only, not the
attempt count, and is not modelled. -/

/-- The counters of one urllib3 Retry object as configured by
RetryingSession. -/
structure RetryState where
  total : Int
  connect : Int
  read : Int
  statusForcelist : List Nat
deriving DecidableEq

/-- RetryingSession.__init__ (src/venue/cvpr.py, lines 32-44): retries
defaults to 3. -/
def mkRetryState (retries : Nat := 3) : RetryState :=
  ⟨retries, retries, retries, [500, 502, 503, 504]⟩

/-- Outcome of one transport attempt: a response with a status code, a
connect failure, or a read failure. -/
inductive TransportOutcome where
  | resp (status : Nat)
  | connectErr
  | readErr
deriving DecidableEq

/-- Retry.is_exhausted: some tracked counter went negative. -/
def RetryState.isExhausted (r : RetryState) : Bool :=
  decide (r.total < 0) || decide (r.connect < 0) || decide (r.read < 0)

/-- One step of the urlopen retry loop: none means the response is handed
to the caller (no retry — including non-retryable status codes), some r2
means the failure consumed a retry and r2 holds the decremented counters
(Retry.increment). -/
def stepRetry (r : RetryState) : TransportOutcome → Option RetryState
  | .resp code =>
    if code ∈ r.statusForcelist then some { r with total := r.total - 1 } else none
  | .connectErr => some { r with total := r.total - 1, connect := r.connect - 1 }
  | .readErr => some { r with total := r.total - 1, read := r.read - 1 }

/-- The urlopen retry loop behind RetryingSession.get: attempts are made
until a response is returned or the retry object is exhausted.  Returns the
number of attempts made and whether a response was delivered (false = the
failure propagated as MaxRetryError).  The fuel argument only bounds the
recursion; any fuel above the initial total suffices. -/
def runSession : Nat → RetryState → (Nat → TransportOutcome) → Nat → Nat × Bool
  | 0, _, _, attempts => (attempts, false)
  | fuel + 1, r, transport, attempts =>
    match stepRetry r (transport attempts) with
    | none => (attempts + 1, true)
    | some r2 =>
      if r2.isExhausted then (attempts + 1, false)
      else runSession fuel r2 transport (attempts + 1)

/-- Failure classes that consume retries under the RetryingSession
configuration: connect errors, read errors, and the listed server-error
statuses. -/
def retryTriggering (o : TransportOutcome) : Bool :=
  match o with
  | .resp code => decide (code ∈ [500, 502, 503, 504])
  | .connectErr => true
  | .readErr => true

/-! ## src/venue/nature.py — fetch_doi_abstract -/

/-- Model of BeautifulSoup(x, 'html.parser').get_text(" ", strip=True) for
the markup-free strings fed to it in the proofs below: surrounding
whitespace is stripped. -/
def htmlText (s : String) : String :=
  pyStrip s

/-- One fetched landing page, holding what fetch_doi_abstract reads from
the soup.  Each Option (Option _) field is a select_one / find result:
the outer none means the element is absent; the inner value is the
element's payload — the parsed JSON of the script element (none when
json.loads raises; an element whose string attribute is None parses as the
empty object), the content attribute of the meta elements, or the
get_text value of the abstract container (captured even when empty). -/
structure NPage where
  dcTypeElem : Option (Option String)
  authors : List String
  ldElem : Option (Option Json)
  metaElem : Option (Option String)
  absElem : Option String
deriving DecidableEq

/-- The candidate expression of the json_ld branch:
data.get("description") or (data.get("mainEntity") or dict()).
get("description").  none models an exception inside the try (a non-dict
data or mainEntity), which the loop swallows. -/
def ldCandidate : Json → Option Json
  | Json.obj fs =>
    let d := jGetD fs "description"
    if jtruthy d then some d
    else
      let me := jGetD fs "mainEntity"
      let me2 := if jtruthy me then me else Json.obj JsonObj.nil
      match me2 with
      | Json.obj fs2 => some (jGetD fs2 "description")
      | _ => none
  | _ => none

/-- Outcome of the json_ld pattern (would it break, and with what value):
the element must exist, its string must parse, the candidate must be truthy
and a string (BeautifulSoup on a non-string raises, which the try
swallows); the captured value is the tag-stripped candidate, which can be
empty when the candidate is whitespace. -/
def stratLd (p : NPage) : Option String :=
  match p.ldElem with
  | some (some data) =>
    match ldCandidate data with
    | some cand =>
      if jtruthy cand then
        match cand with
        | Json.str s => some (htmlText s)
        | _ => none
      else none
    | none => none
  | _ => none

/-- Outcome of the meta pattern: the element must exist and its content
attribute must be truthy; the captured value is the stripped content. -/
def stratMeta (p : NPage) : Option String :=
  match p.metaElem with
  | some (some content) => if content = "" then none else some (pyStrip content)
  | _ => none

/-- Outcome of the html pattern: an existing abstract container always
breaks, capturing its text even when that text is empty. -/
def stratDom (p : NPage) : Option String :=
  p.absElem

/-- The three extraction strategies, tagged. -/
inductive PatternKind where
  | jsonLd
  | metaTag
  | htmlBlock
deriving DecidableEq

/-- ABSTRACT_PATTERNS from src/venue/nature.py (lines 37-44), in its
declared priority order. -/
def ABSTRACT_PATTERNS : List PatternKind :=
  [PatternKind.jsonLd, PatternKind.metaTag, PatternKind.htmlBlock]

/-- Dispatch one pattern of the loop body. -/
def tryPattern (p : NPage) : PatternKind → Option String
  | .jsonLd => stratLd p
  | .metaTag => stratMeta p
  | .htmlBlock => stratDom p

/-- The for loop over ABSTRACT_PATTERNS in fetch_doi_abstract: the first
pattern that breaks determines abstract_text; none means the loop ran out
and abstract_text stayed None. -/
def runChain (p : NPage) : List PatternKind → Option String
  | [] => none
  | k :: ks =>
    match tryPattern p k with
    | some v => some v
    | none => runChain p ks

/-- The abstract_text produced by the pattern loop. -/
def chainAbstract (p : NPage) : Option String :=
  runChain p ABSTRACT_PATTERNS

/-- Length of a match of the regular expression </?jats:[^>]+> at the head
of the list, if any. -/
def jatsMatchLen (l : List Char) : Option Nat :=
  match l with
  | '<' :: rest =>
    let sl : Nat × List Char :=
      match rest with
      | '/' :: r => (1, r)
      | _ => (0, rest)
    match sl.2 with
    | 'j' :: 'a' :: 't' :: 's' :: ':' :: r2 =>
      let body := r2.takeWhile fun c => c != '>'
      if body.isEmpty then none
      else
        match r2.drop body.length with
        | '>' :: _ => some (1 + sl.1 + 5 + body.length + 1)
        | _ => none
    | _ => none
  | _ => none

/-- Worker for stripJats: leftmost, non-overlapping removal, restarting
after each removed match, as re.sub does.  Fuel bounds the recursion;
length + 1 always suffices. -/
def stripJatsAux : Nat → List Char → List Char
  | 0, l => l
  | _ + 1, [] => []
  | fuel + 1, c :: cs =>
    match jatsMatchLen (c :: cs) with
    | some n => stripJatsAux fuel ((c :: cs).drop n)
    | none => c :: stripJatsAux fuel cs

/-- re.sub(r"</?jats:[^>]+>", "", s) from the Crossref fallback in
src/venue/nature.py. -/
def stripJats (s : String) : String :=
  String.mk (stripJatsAux (s.toList.length + 1) s.toList)

/-- The Crossref fallback block of fetch_doi_abstract (src/venue/nature.py,
lines 108-117), reached only when abstract_text is None: requires the input
to start with '10.', reads message.abstract from the response (outer none =
request or parse exception, caught; inner none = no abstract field), and
accepts any truthy abstract after jats-tag removal and text cleanup — no
length check of any kind. -/
def crossrefFallback (doi_or_url : String) (cref : Option (Option String)) :
    Option String :=
  if pyStartsWith doi_or_url "10." then
    match cref with
    | some (some abstract) =>
      if abstract = "" then none else some (htmlText (stripJats abstract))
    | _ => none
  else none

/-- The OriginalPaper gate: the dc.type meta element must exist and its
content attribute (empty when absent) must lower-case to
'originalpaper'. -/
def isOriginalPaper (dcTypeElem : Option (Option String)) : Bool :=
  match dcTypeElem with
  | none => false
  | some content => pyLower (content.getD "") == "originalpaper"

/-- fetch_doi_abstract from src/venue/nature.py (lines 46-123) with the
transport folded into the arguments: page none models a failed page
request; cref is the Crossref response when that call is made.  The result
is (abstract, authors), or None when the request failed, the page is not an
OriginalPaper, or no truthy abstract was found. -/
def natureFetchDoiAbstract (doi_or_url : String) (page : Option NPage)
    (cref : Option (Option String)) : Option (String × List String) :=
  match page with
  | none => none
  | some p =>
    if isOriginalPaper p.dcTypeElem then
      let a1 :=
        match chainAbstract p with
        | some s => some s
        | none => crossrefFallback doi_or_url cref
      match a1 with
      | some s => if s = "" then none else some (s, p.authors)
      | none => none
    else none

/-! ## src/venue/science.py — fetch_doi_abstract -/

/-- Result of a Python call that can let an exception escape: ok is a
normal return, raised an uncaught exception. -/
inductive PyResult (α : Type) where
  | ok (val : α)
  | raised
deriving DecidableEq

/-- Character class [-._;()/:A-Z0-9] of the DOI pattern, with re.I adding
the lower-case letters. -/
def doiBodyChar (c : Char) : Bool :=
  c.isDigit || ('A' ≤ c && c ≤ 'Z') || ('a' ≤ c && c ≤ 'z') ||
    c == '-' || c == '.' || c == '_' || c == ';' || c == '(' || c == ')' ||
    c == '/' || c == ':'

/-- Greedy backtracking over the digit count of 10\.\d{4,9}/...: try k
digits from 9 down to 4; rest0 is the input after the literal '10.'. -/
def doiTryK (rest0 : List Char) : Nat → Option (List Char)
  | 0 => none
  | 1 => none
  | 2 => none
  | 3 => none
  | k + 4 =>
    let digits := rest0.take (k + 4)
    let here : Option (List Char) :=
      if digits.length = k + 4 && digits.all Char.isDigit then
        match rest0.drop (k + 4) with
        | '/' :: after =>
          let body := after.takeWhile doiBodyChar
          if body.isEmpty then none
          else some ('1' :: '0' :: '.' :: (digits ++ '/' :: body))
        | _ => none
      else none
    match here with
    | some m => some m
    | none => doiTryK rest0 (k + 3)

/-- Try the DOI pattern anchored at the head of the list. -/
def doiMatchHere : List Char → Option (List Char)
  | '1' :: '0' :: '.' :: rest0 => doiTryK rest0 9
  | _ => none

/-- Leftmost search for the DOI pattern. -/
def doiSearch : List Char → Option (List Char)
  | [] => none
  | c :: cs =>
    match doiMatchHere (c :: cs) with
    | some m => some m
    | none => doiSearch cs

/-- re.search(r"(10\.\d{4,9}/[-._;()/:A-Z0-9]+)", s, re.I) from
src/venue/science.py: the leftmost match with greedy digit and body
runs. -/
def extractDoi (s : String) : Option String :=
  (doiSearch s.toList).map String.mk

/-- Python str() of a JSON value as used in the f-string building author
names.  The scalar cases are exact; the container cases are placeholders —
no proof below depends on them. -/
def pyStr : Json → String
  | Json.null => "None"
  | Json.bool true => "True"
  | Json.bool false => "False"
  | Json.num n => toString n
  | Json.str s => s
  | Json.arr _ => "[...]"
  | Json.obj _ => "\x7b...\x7d"

/-- Outcome of the author list comprehension: the names, a TypeError that
the except clause catches (iterating a non-iterable), or an uncaught
AttributeError (calling .get on a non-dict element). -/
inductive AuthorsOutcome where
  | names (authors : List String)
  | caught
  | raised
deriving DecidableEq

/-- Names built from the elements of the author array; none = some element
is not a dict, so .get raised. -/
def authorNamesGo : List Json → Option (List String)
  | [] => some []
  | Json.obj fs :: rest =>
    (authorNamesGo rest).map fun tl =>
      pyStrip (pyStr (jGetOr fs "given" (Json.str "")) ++ " " ++
        pyStr (jGetOr fs "family" (Json.str ""))) :: tl
  | _ :: _ => none

/-- The comprehension over message.get("author", []): a list is traversed
element-wise; iterating a non-empty string or dict reaches a non-dict
element (a character or a key) and raises; None, booleans and numbers are
not iterable, a TypeError the except clause catches. -/
def authorsFrom : Json → AuthorsOutcome
  | Json.arr xs =>
    match authorNamesGo xs.toList with
    | some l => AuthorsOutcome.names l
    | none => AuthorsOutcome.raised
  | Json.str s => if s = "" then AuthorsOutcome.names [] else AuthorsOutcome.raised
  | Json.obj JsonObj.nil => AuthorsOutcome.names []
  | Json.obj _ => AuthorsOutcome.raised
  | _ => AuthorsOutcome.caught

/-- The body of fetch_doi_abstract from src/venue/science.py once the
message object is in hand: require message.type == 'journal-article', clean
the abstract, build the author names, and reject with None when the
abstract is falsy, the author list is empty, or the cleaned abstract is
shorter than 200 characters. -/
def scienceFromMessage (mfs : JsonObj) : PyResult (Option (String × List String)) :=
  if jGetD mfs "type" = Json.str "journal-article" then
    if jtruthy (jGetD mfs "abstract") then
      match jGetD mfs "abstract" with
      | Json.str ah =>
        match authorsFrom (jGetOr mfs "author" (Json.arr JsonList.nil)) with
        | AuthorsOutcome.raised => PyResult.raised
        | AuthorsOutcome.caught => PyResult.ok none
        | AuthorsOutcome.names authors =>
          if htmlText ah = "" || authors.isEmpty || (htmlText ah).length < 200 then
            PyResult.ok none
          else PyResult.ok (some (htmlText ah, authors))
      | _ => PyResult.ok none
    else PyResult.ok none
  else PyResult.ok none

/-- fetch_doi_abstract from src/venue/science.py (lines 54-118), the
Crossref-only variant: extract a DOI from the input (no DOI, no call), fold
the HTTP request into resp (none = a caught request or JSON-decode error),
and hand the message object to scienceFromMessage.  Calling .get on a
non-dict response or message propagates AttributeError, which the
function's except clauses do not list. -/
def scienceFetchDoiAbstract (doi_or_url : String) (resp : Option Json) :
    PyResult (Option (String × List String)) :=
  match extractDoi doi_or_url with
  | none => PyResult.ok none
  | some _ =>
    match resp with
    | none => PyResult.ok none
    | some data =>
      match data with
      | Json.obj dfs =>
        match jGetOr dfs "message" (Json.obj JsonObj.nil) with
        | Json.obj mfs => scienceFromMessage mfs
        | _ => PyResult.raised
      | _ => PyResult.raised

/-! ## Concrete instances used in the closed theorems below -/

/-- An arXiv entry whose title shares nothing with the query title. -/
def c1entryBadTitle : AtomEntry :=
  ⟨"qqqq", some ["Ann He"], [], some "A"⟩

/-- An arXiv entry with a perfect title but a disjoint author set. -/
def c1entryBadAuthors : AtomEntry :=
  ⟨"deep nets", some ["Bob Wu"], [], some "A"⟩

/-- A passing candidate ranked first, with similarity 18/19. -/
def c5first : AtomEntry :=
  ⟨"robot dogs", some ["Ann He"], [⟨some "pdf", "http://arxiv.org/pdf/1"⟩],
    some " First abstract "⟩

/-- A passing candidate ranked second, with similarity 1. -/
def c5second : AtomEntry :=
  ⟨"robot dog", some ["Ann He"], [⟨some "pdf", "http://arxiv.org/pdf/2"⟩],
    some "Second abstract"⟩

/-- A candidate with a perfect title match and authors present. -/
def c10entry : AtomEntry :=
  ⟨"t", some ["Ann He"], [⟨some "pdf", "u"⟩], some "abs"⟩

/-- A well-formed record dict: required keys present. -/
def c2goodRecord : Json :=
  Json.obj (JsonObj.ofList [("title", Json.str "A"), ("authors", Json.arr JsonList.nil)])

/-- A persisted document that parses as JSON but whose second element is
not a record mapping. -/
def c2badDoc : Json :=
  Json.arr (JsonList.ofList [c2goodRecord, Json.num 42])

/-- A json.load model that parses the file into c2badDoc. -/
def c2decode : String → Option Json :=
  fun _ => some c2badDoc

/-- A json.load model for which every input fails to parse. -/
def c2decodeFail : String → Option Json :=
  fun _ => none

/-- The record loaded from c2goodRecord. -/
def c2paperA : CPaper :=
  ⟨Json.str "A", Json.arr JsonList.nil, Json.null, Json.null, Json.null, Json.null, Json.null⟩

/-- A stored record with a non-empty abstract, an empty PDF link, and a
non-empty arXiv link. -/
def c3paper : CPaper :=
  ⟨Json.str "T", Json.arr JsonList.nil, Json.null, Json.null,
    Json.str "https://arxiv.org/abs/1234.5678", Json.str "An abstract.", Json.null⟩

/-- A record used for the upsert theorems: complete, string-keyed. -/
def c8paper : CPaper :=
  ⟨Json.str "B", Json.arr JsonList.nil, Json.num 1, Json.str "https://x/p.pdf",
    Json.null, Json.str "An abstract.", Json.null⟩

/-- A landing page on which the meta pattern fires with a whitespace-only
content while the DOM pattern holds a real abstract. -/
def c4page : NPage :=
  ⟨some (some "OriginalPaper"), [], none, some (some " "), some "The real abstract text."⟩

/-- A landing page on which every page-level pattern fails. -/
def c9pageAllFail : NPage :=
  ⟨some (some "OriginalPaper"), [], none, none, none⟩

/-- A landing page on which the meta pattern fires with a real value. -/
def c9pageMeta : NPage :=
  ⟨some (some "OriginalPaper"), [], none, some (some "Meta abstract."), none⟩

/-- A cleaned Crossref abstract of more than 200 characters. -/
def c9longAbstract : String :=
  "This study examines the locomotion of quadruped robots on unstructured terrain and reports a controller that adapts footfall timing to slope changes, validated over two hundred trials across gravel, sand and stairs with consistent gains."

/-- A Crossref response for a journal article carrying c9longAbstract. -/
def c9sciResp : Json :=
  Json.obj (JsonObj.ofList
    [("message", Json.obj (JsonObj.ofList
      [("type", Json.str "journal-article"),
       ("abstract", Json.str c9longAbstract),
       ("author", Json.arr (JsonList.ofList
         [Json.obj (JsonObj.ofList [("given", Json.str "Ann"), ("family", Json.str "He")])]))]))])

/-- A landing page whose JSON-LD block and DOM container would both yield
values; used to exercise the priority order. -/
def c4pageLd : NPage :=
  ⟨some (some "OriginalPaper"), [],
    some (some (Json.obj (JsonObj.ofList [("description", Json.str "Structured abstract.")]))),
    some (some "Meta value."), some "Dom value."⟩

/-! ## Helper lemmas -/

/-- A candidate below the similarity threshold is skipped. -/
lemma searchEntries_skip_title {t : String} {iros : Finset String} {ms : ℚ}
    {e : AtomEntry} {rest : List AtomEntry}
    (h : calculate_title_similarity t e.title < ms) :
    searchEntries t iros ms (e :: rest) = searchEntries t iros ms rest := by
  simp only [searchEntries]
  rw [if_pos h]

/-- A candidate without an author element is skipped. -/
lemma searchEntries_skip_no_authors {t : String} {iros : Finset String} {ms : ℚ}
    {e : AtomEntry} {rest : List AtomEntry} (ha : e.authors = none) :
    searchEntries t iros ms (e :: rest) = searchEntries t iros ms rest := by
  by_cases hs : calculate_title_similarity t e.title < ms
  · simp only [searchEntries]
    rw [if_pos hs]
  · simp only [searchEntries]
    rw [if_neg hs, ha]

/-- A candidate whose last-name set misses the IROS last-name set is
skipped, whatever its similarity. -/
lemma searchEntries_skip_authors {t : String} {iros : Finset String} {ms : ℚ}
    {e : AtomEntry} {rest : List AtomEntry} (names : List String)
    (ha : e.authors = some names) (h : iros ∩ arxivLastNames names = ∅) :
    searchEntries t iros ms (e :: rest) = searchEntries t iros ms rest := by
  by_cases hs : calculate_title_similarity t e.title < ms
  · simp only [searchEntries]
    rw [if_pos hs]
  · simp only [searchEntries]
    rw [if_neg hs, ha]
    simp [h]

/-- A candidate passing both gates returns its fields at once. -/
lemma searchEntries_head_pass {t : String} {iros : Finset String} {ms : ℚ}
    {e : AtomEntry} {rest : List AtomEntry}
    (hp : entryPassesB t iros ms e = true) :
    searchEntries t iros ms (e :: rest) = (entryPdfUrl e, entryAbstract e) := by
  have hs : ¬ calculate_title_similarity t e.title < ms := by
    by_contra hs
    simp [entryPassesB, hs] at hp
  cases ha : e.authors with
  | none =>
    exfalso
    simp [entryPassesB, ha] at hp
  | some names =>
    have hover : ¬ iros ∩ arxivLastNames names = ∅ := by
      by_contra hover
      simp [entryPassesB, ha, hover] at hp
    simp only [searchEntries]
    rw [if_neg hs, ha]
    exact if_neg hover

/-- A failing candidate is skipped. -/
lemma searchEntries_skip_fail {t : String} {iros : Finset String} {ms : ℚ}
    {e : AtomEntry} {rest : List AtomEntry}
    (hf : entryPassesB t iros ms e = false) :
    searchEntries t iros ms (e :: rest) = searchEntries t iros ms rest := by
  by_cases hs : calculate_title_similarity t e.title < ms
  · exact searchEntries_skip_title hs
  · cases ha : e.authors with
    | none => exact searchEntries_skip_no_authors ha
    | some names =>
      have h : iros ∩ arxivLastNames names = ∅ := by
        by_contra h
        simp [entryPassesB, hs, ha, h] at hf
      exact searchEntries_skip_authors names ha h

/-- A list of failing candidates yields (None, None). -/
lemma searchEntries_all_fail {t : String} {iros : Finset String} {ms : ℚ} :
    ∀ l : List AtomEntry, (∀ e ∈ l, entryPassesB t iros ms e = false) →
      searchEntries t iros ms l = (none, none) := by
  intro l
  induction l with
  | nil => intro _; rfl
  | cons e rest ih =>
    intro h
    rw [searchEntries_skip_fail (h e (List.mem_cons_self e rest))]
    exact ih fun x hx => h x (List.mem_cons_of_mem _ hx)

/-- An empty IROS last-name set rejects every candidate list. -/
lemma searchEntries_empty_iros {t : String} {ms : ℚ} :
    ∀ l : List AtomEntry, searchEntries t ∅ ms l = (none, none) := by
  intro l
  induction l with
  | nil => rfl
  | cons e rest ih =>
    cases ha : e.authors with
    | none => rw [searchEntries_skip_no_authors ha]; exact ih
    | some names =>
      rw [searchEntries_skip_authors names ha (Finset.empty_inter _)]
      exact ih

/-- A whitespace-only character list splits into no words. -/
lemma wordsAux_ws_nil : ∀ l : List Char, (∀ c ∈ l, c.isWhitespace = true) →
    wordsAux l [] = [] := by
  intro l
  induction l with
  | nil => intro _; rfl
  | cons c cs ih =>
    intro h
    have hc : c.isWhitespace = true := h c (List.mem_cons_self c cs)
    simp only [wordsAux, hc, if_true, List.isEmpty_nil]
    exact ih fun x hx => h x (List.mem_cons_of_mem _ hx)

/-- Stripping only removes characters. -/
lemma mem_pyStripL {x : Char} : ∀ {l : List Char}, x ∈ pyStripL l → x ∈ l := by
  intro l h
  unfold pyStripL at h
  rw [List.mem_reverse] at h
  have h1 := (List.dropWhile_sublist _).subset h
  rw [List.mem_reverse] at h1
  exact (List.dropWhile_sublist _).subset h1

/-- Characters of a comma-split piece come from the accumulator or are
non-comma characters of the input. -/
lemma splitCommaAux_mem : ∀ (l acc piece : List Char), piece ∈ splitCommaAux l acc →
    ∀ x ∈ piece, x ∈ acc ∨ (x ∈ l ∧ x ≠ ',') := by
  intro l
  induction l with
  | nil =>
    intro acc piece hp x hx
    simp only [splitCommaAux, List.mem_singleton] at hp
    subst hp
    exact Or.inl (List.mem_reverse.mp hx)
  | cons c cs ih =>
    intro acc piece hp x hx
    by_cases hc : c = ','
    · simp only [splitCommaAux] at hp
      rw [if_pos hc] at hp
      rcases List.mem_cons.mp hp with h1 | h1
      · subst h1
        exact Or.inl (List.mem_reverse.mp hx)
      · rcases ih [] piece h1 x hx with h2 | h2
        · exact absurd h2 (List.not_mem_nil x)
        · exact Or.inr ⟨List.mem_cons_of_mem _ h2.1, h2.2⟩
    · simp only [splitCommaAux] at hp
      rw [if_neg hc] at hp
      rcases ih (c :: acc) piece hp x hx with h1 | h1
      · rcases List.mem_cons.mp h1 with h2 | h2
        · subst h2
          exact Or.inr ⟨List.mem_cons_self _ _, hc⟩
        · exact Or.inl h2
      · exact Or.inr ⟨List.mem_cons_of_mem _ h1.1, h1.2⟩

/-- The author fold leaves the set unchanged when every piece produces no
words. -/
lemma foldl_names_const : ∀ (L : List (List Char)) (acc : Finset String),
    (∀ a ∈ L, (wordsL (pyStripL a)).getLast? = none) →
    L.foldl (fun acc author =>
      match (wordsL (pyStripL author)).getLast? with
      | none => acc
      | some lastPart => insert (normalize_author_name (String.mk lastPart)) acc) acc = acc := by
  intro L
  induction L with
  | nil => intro acc _; rfl
  | cons a as ih =>
    intro acc h
    rw [List.foldl_cons]
    simp only [h a (List.mem_cons_self a as)]
    exact ih acc fun x hx => h x (List.mem_cons_of_mem _ hx)

/-- A comma-and-whitespace author string yields no last names. -/
lemma get_last_names_empty {s : String}
    (h : ∀ c ∈ s.toList, c = ',' ∨ c.isWhitespace = true) :
    get_last_names s = ∅ := by
  have hws : ∀ piece ∈ splitCommaL s.toList, ∀ x ∈ piece, x.isWhitespace = true := by
    intro piece hp x hx
    rcases splitCommaAux_mem s.toList [] piece hp x hx with h1 | h1
    · exact absurd h1 (List.not_mem_nil x)
    · rcases h x h1.1 with h2 | h2
      · exact absurd h2 h1.2
      · exact h2
  have hnone : ∀ a ∈ (splitCommaL s.toList).map pyStripL,
      (wordsL (pyStripL a)).getLast? = none := by
    intro a ha
    rcases List.mem_map.mp ha with ⟨piece, hp, rfl⟩
    have hall : ∀ x ∈ pyStripL (pyStripL piece), x.isWhitespace = true :=
      fun x hx => hws piece hp x (mem_pyStripL (mem_pyStripL hx))
    rw [wordsL, wordsAux_ws_nil _ hall]
    rfl
  exact foldl_names_const _ ∅ hnone

/-! ## Claim theorems -/

/-- C1: the resolver accepts a candidate only when both hard gates pass —
a candidate below the similarity threshold is skipped whatever its author
overlap, a candidate with an empty last-name intersection is skipped
whatever its similarity, and when every candidate fails a gate the scan
returns (None, None). -/
theorem resolver_hard_gates :
    (∀ (t : String) (iros : Finset String) (ms : ℚ) (e : AtomEntry) (rest : List AtomEntry),
      calculate_title_similarity t e.title < ms →
        searchEntries t iros ms (e :: rest) = searchEntries t iros ms rest) ∧
    (∀ (t : String) (iros : Finset String) (ms : ℚ) (e : AtomEntry) (rest : List AtomEntry)
      (names : List String), e.authors = some names → iros ∩ arxivLastNames names = ∅ →
        searchEntries t iros ms (e :: rest) = searchEntries t iros ms rest) ∧
    (∀ (t : String) (iros : Finset String) (ms : ℚ) (l : List AtomEntry),
      (∀ e ∈ l, entryPassesB t iros ms e = false) →
        searchEntries t iros ms l = (none, none)) :=
  ⟨fun _ _ _ _ _ h => searchEntries_skip_title h,
   fun _ _ _ _ _ names ha h => searchEntries_skip_authors names ha h,
   fun _ _ _ _ h => searchEntries_all_fail _ h⟩

set_option maxRecDepth 200000 in
/-- Witness for C1 at concrete entries: a title-gate rejection, an
author-gate rejection at similarity 1, and a full scan with no pass. -/
theorem resolver_hard_gates_witness :
    searchEntries "deep nets" {"he"} (mkRat 4 5) [c1entryBadTitle] =
        searchEntries "deep nets" {"he"} (mkRat 4 5) [] ∧
    searchEntries "deep nets" {"he"} (mkRat 4 5) [c1entryBadAuthors] =
        searchEntries "deep nets" {"he"} (mkRat 4 5) [] ∧
    searchEntries "deep nets" {"he"} (mkRat 4 5) [c1entryBadTitle, c1entryBadAuthors] =
        (none, none) :=
  ⟨resolver_hard_gates.1 "deep nets" {"he"} (mkRat 4 5) c1entryBadTitle [] (by decide),
   resolver_hard_gates.2.1 "deep nets" {"he"} (mkRat 4 5) c1entryBadAuthors [] ["Bob Wu"]
     rfl (by decide),
   resolver_hard_gates.2.2 "deep nets" {"he"} (mkRat 4 5) [c1entryBadTitle, c1entryBadAuthors]
     (by decide)⟩

/-- C5: when several candidates pass both gates, the resolver returns the
fields of the first passing candidate in feed order, whatever comes
after it. -/
theorem resolver_first_pass :
    ∀ (t : String) (iros : Finset String) (ms : ℚ) (pre : List AtomEntry) (e : AtomEntry)
      (post : List AtomEntry),
      (∀ x ∈ pre, entryPassesB t iros ms x = false) →
      entryPassesB t iros ms e = true →
      searchEntries t iros ms (pre ++ e :: post) = (entryPdfUrl e, entryAbstract e) := by
  intro t iros ms pre e post hpre hp
  induction pre with
  | nil => exact searchEntries_head_pass hp
  | cons x xs ih =>
    rw [List.cons_append, searchEntries_skip_fail (hpre x (List.mem_cons_self x xs))]
    exact ih fun y hy => hpre y (List.mem_cons_of_mem _ hy)

set_option maxRecDepth 400000 in
/-- Witness for C5: both concrete candidates pass, the first-ranked one has
the strictly lower similarity, and the scan returns the first one's PDF
link and stripped abstract. -/
theorem resolver_first_pass_witness :
    entryPassesB "robot dog" {"he"} (mkRat 4 5) c5first = true ∧
    entryPassesB "robot dog" {"he"} (mkRat 4 5) c5second = true ∧
    calculate_title_similarity "robot dog" c5first.title <
      calculate_title_similarity "robot dog" c5second.title ∧
    searchEntries "robot dog" {"he"} (mkRat 4 5) ([] ++ c5first :: [c5second]) =
      (entryPdfUrl c5first, entryAbstract c5first) ∧
    (entryPdfUrl c5first, entryAbstract c5first) =
      (some "http://arxiv.org/pdf/1", some "First abstract") :=
  ⟨by decide, by decide, by decide,
   resolver_first_pass "robot dog" {"he"} (mkRat 4 5) [] c5first [c5second]
     (by simp) (by decide),
   by decide⟩

/-- C7 counterexample: on a failed HTTP call the resolver returns at once —
the trace of the failing call holds the request and no sleep, so the
courtesy delay does not fire regardless of success and failure. -/
theorem courtesy_delay_cex :
    search_arxiv_for_paper "t" "a" (mkRat 4 5) none = ([FetchEv.httpGet], (none, none)) ∧
    FetchEv.sleepFor 3 ∉ ([FetchEv.httpGet] : List FetchEv) :=
  ⟨rfl, by decide⟩

/-- C7 as amended: the 3-second courtesy sleep runs after every HTTP call
that returns without raising, before any parsing or matching and regardless
of whether a candidate later matches; a call that raises skips the delay
(the function returns immediately). -/
theorem courtesy_delay_after_success :
    ∀ (t a : String) (ms : ℚ) (body : Option (List AtomEntry)),
      (search_arxiv_for_paper t a ms (some body)).1 =
        [FetchEv.httpGet, FetchEv.sleepFor 3] ∧
      (search_arxiv_for_paper t a ms none).1 = [FetchEv.httpGet] :=
  fun _ _ _ _ => ⟨rfl, rfl⟩

/-- C10: an author string of only commas and whitespace yields an empty
last-name set, and the resolver then returns (None, None) on every
response, whatever the titles. -/
theorem empty_author_string_never_matches :
    ∀ s : String, (∀ c ∈ s.toList, c = ',' ∨ c.isWhitespace = true) →
      get_last_names s = ∅ ∧
      ∀ (t : String) (ms : ℚ) (resp : Option (Option (List AtomEntry))),
        (search_arxiv_for_paper t s ms resp).2 = (none, none) := by
  intro s h
  have h1 := get_last_names_empty h
  refine ⟨h1, ?_⟩
  intro t ms resp
  match resp with
  | none => rfl
  | some none => rfl
  | some (some entries) =>
    simp only [search_arxiv_for_paper]
    rw [h1]
    exact searchEntries_empty_iros entries

set_option maxRecDepth 100000 in
/-- Witness for C10 at the concrete author string ' , ,, ' against a
candidate with a perfect title match and authors present. -/
theorem empty_author_string_never_matches_witness :
    (∀ c ∈ (" , ,, " : String).toList, c = ',' ∨ c.isWhitespace = true) ∧
    get_last_names " , ,, " = ∅ ∧
    (search_arxiv_for_paper "t" " , ,, " (mkRat 4 5) (some (some [c10entry]))).2 =
      (none, none) :=
  ⟨by decide,
   (empty_author_string_never_matches " , ,, " (by decide)).1,
   (empty_author_string_never_matches " , ,, " (by decide)).2 "t" (mkRat 4 5)
     (some (some [c10entry]))⟩

/-- Looking up a removed key yields nothing. -/
lemma alookup_aremove_self {α β : Type} [DecidableEq α] :
    ∀ (l : List (α × β)) (k : α), alookup (aremove l k) k = none := by
  intro l k
  induction l with
  | nil => rfl
  | cons kv rest ih =>
    obtain ⟨k', v'⟩ := kv
    by_cases h : k' = k
    · simp only [aremove, if_pos h]
      exact ih
    · simp only [aremove, if_neg h, alookup, if_neg h]
      exact ih

/-- Removing one key does not change lookups of another. -/
lemma alookup_aremove_ne {α β : Type} [DecidableEq α] :
    ∀ (l : List (α × β)) (k k' : α), k ≠ k' →
      alookup (aremove l k') k = alookup l k := by
  intro l k k' hne
  induction l with
  | nil => rfl
  | cons kv rest ih =>
    obtain ⟨k0, v0⟩ := kv
    by_cases h : k0 = k'
    · subst h
      simp only [aremove, alookup, eq_self_iff_true, if_true]
      rw [if_neg (Ne.symm hne)]
      exact ih
    · simp only [aremove, if_neg h, alookup]
      by_cases h2 : k0 = k
      · rw [if_pos h2, if_pos h2]
      · rw [if_neg h2, if_neg h2]
        exact ih

/-- Upserting under a key makes that key map to the new value. -/
lemma alookup_aupsert_self {α β : Type} [DecidableEq α] :
    ∀ (l : List (α × β)) (k : α) (v : β), alookup (aupsert l k v) k = some v := by
  intro l k v
  induction l with
  | nil => simp [aupsert, alookup]
  | cons kv rest ih =>
    obtain ⟨k', v'⟩ := kv
    by_cases h : k' = k
    · simp only [aupsert, if_pos h, alookup, if_pos h]
    · simp only [aupsert, if_neg h, alookup, if_neg h]
      exact ih

/-- Upserting the same binding twice equals upserting it once. -/
lemma aupsert_aupsert_self {α β : Type} [DecidableEq α] :
    ∀ (l : List (α × β)) (k : α) (v : β), aupsert (aupsert l k v) k v = aupsert l k v := by
  intro l k v
  induction l with
  | nil => simp [aupsert]
  | cons kv rest ih =>
    obtain ⟨k', v'⟩ := kv
    by_cases h : k' = k
    · simp only [aupsert, if_pos h]
    · simp only [aupsert, if_neg h]
      rw [ih]

/-- C2 as amended: when the persisted bytes fail to parse, construction
swallows the failure, leaves the mapping empty, and renames the file to the
timestamped backup, which keeps the original bytes while the original name
disappears.  (When the document parses but an individual record is
malformed, the backup still happens but records loaded before the bad one
remain in the mapping — see the counterexample.) -/
theorem store_load_corruption_recovery :
    ∀ (decode : String → Option Json) (ts filename : String)
      (fs : List (String × String)) (bytes : String),
      alookup fs filename = some bytes → decode bytes = none →
      (loadExistingPapers decode ts filename fs).papers = [] ∧
      alookup (loadExistingPapers decode ts filename fs).fs (backupName filename ts) =
        some bytes ∧
      alookup (loadExistingPapers decode ts filename fs).fs filename = none := by
  intro decode ts filename fs bytes hf hd
  have hne : filename ≠ backupName filename ts := by
    intro he
    have hlen : filename.length = (backupName filename ts).length := by rw [← he]
    have h5 : (".bak." : String).length = 5 := rfl
    rw [backupName, String.length_append, String.length_append, h5] at hlen
    omega
  have hfs : loadExistingPapers decode ts filename fs =
      ⟨[], (backupName filename ts, bytes) ::
        aremove (aremove fs filename) (backupName filename ts)⟩ := by
    simp only [loadExistingPapers, hf, hd, fsRename]
  rw [hfs]
  refine ⟨rfl, ?_, ?_⟩
  · simp only [alookup, eq_self_iff_true, if_true]
  · simp only [alookup]
    rw [if_neg (Ne.symm hne), alookup_aremove_ne _ _ _ hne, alookup_aremove_self]

/-- Witness for the amended C2 at a concrete store file whose bytes do not
parse. -/
theorem store_load_corruption_recovery_witness :
    alookup [("db.json", "junk")] "db.json" = some "junk" ∧
    c2decodeFail "junk" = none ∧
    (loadExistingPapers c2decodeFail "T" "db.json" [("db.json", "junk")]).papers = [] ∧
    alookup (loadExistingPapers c2decodeFail "T" "db.json" [("db.json", "junk")]).fs
      (backupName "db.json" "T") = some "junk" ∧
    alookup (loadExistingPapers c2decodeFail "T" "db.json" [("db.json", "junk")]).fs
      "db.json" = none :=
  ⟨rfl, rfl,
   (store_load_corruption_recovery c2decodeFail "T" "db.json" [("db.json", "junk")]
     "junk" rfl rfl).1,
   (store_load_corruption_recovery c2decodeFail "T" "db.json" [("db.json", "junk")]
     "junk" rfl rfl).2.1,
   (store_load_corruption_recovery c2decodeFail "T" "db.json" [("db.json", "junk")]
     "junk" rfl rfl).2.2⟩

/-- C2 counterexample: a persisted document that parses as JSON but whose
second element is not a record mapping.  Construction takes the error path
and creates the backup, yet the in-memory mapping keeps the record loaded
before the failure — it is not empty, contradicting the claim that a
malformed file always leaves an empty store. -/
theorem store_load_corruption_cex :
    (loadExistingPapers c2decode "20250101" "dataset/cvpr25.json"
        [("dataset/cvpr25.json", "bad")]).papers = [(Json.str "A", c2paperA)] ∧
    (loadExistingPapers c2decode "20250101" "dataset/cvpr25.json"
        [("dataset/cvpr25.json", "bad")]).fs =
      [(backupName "dataset/cvpr25.json" "20250101", "bad")] ∧
    ([(Json.str "A", c2paperA)] : List (Json × CPaper)) ≠ [] :=
  ⟨by decide, by decide, by decide⟩

/-- C3 counterexample: a stored record with a non-empty abstract, an empty
PDF link, and a non-empty arXiv link.  The specification's completeness
invariant calls it complete, but the code's check returns false and the
record is not skipped. -/
theorem completeness_check_cex :
    specIsComplete c3paper = true ∧
    cvprHasAllData c3paper = false ∧
    cvprShouldSkip [(c3paper.title, c3paper)] c3paper.title = false :=
  ⟨by decide, by decide, by decide⟩

/-- C3 as amended: the cvpr skip check is true exactly when the abstract
and the PDF link are both truthy — the arXiv link never counts, so a record
with a truthy abstract and no PDF link is re-fetched whatever its arXiv
link; the iros24 skip check reads only the arxiv_pdf field and ignores the
abstract entirely. -/
theorem completeness_check_amended :
    (∀ p : CPaper, cvprHasAllData p = true ↔
      (jtruthy p.abstract = true ∧ jtruthy p.pdf_url = true)) ∧
    (∀ p q : CPaper, p.abstract = q.abstract → p.pdf_url = q.pdf_url →
      cvprHasAllData p = cvprHasAllData q) ∧
    (∀ p : CPaper, jtruthy p.abstract = true → jtruthy p.pdf_url = false →
      cvprHasAllData p = false) ∧
    (∀ p q : IrosPaper, p.arxiv_pdf = q.arxiv_pdf →
      irosShouldSkip (some p) = irosShouldSkip (some q)) := by
  refine ⟨?_, ?_, ?_, ?_⟩
  · intro p
    simp [cvprHasAllData]
  · intro p q h1 h2
    simp [cvprHasAllData, h1, h2]
  · intro p h1 h2
    simp [cvprHasAllData, h1, h2]
  · intro p q h
    simp [irosShouldSkip, h]

/-- Witness for the amended C3: the concrete record with an abstract, no
PDF link and an arXiv link is judged incomplete by the code's check. -/
theorem completeness_check_amended_witness :
    jtruthy c3paper.abstract = true ∧
    jtruthy c3paper.pdf_url = false ∧
    cvprHasAllData c3paper = false :=
  ⟨by decide, by decide,
   completeness_check_amended.2.2.1 c3paper (by decide) (by decide)⟩

/-- C8: a successful upsert is idempotent — upserting the same record again
returns the very same store state, so the in-memory mapping and the
persisted document (hence its serialized bytes) are unchanged; the record
sits under its title key, and the stored document is the full re-serialized
mapping. -/
theorem upsert_idempotent :
    ∀ (db : CvprDB) (p : CPaper) (db1 : CvprDB),
      save_paper db p = some db1 →
      save_paper db1 p = some db1 ∧
      alookup db1.papers p.title = some p ∧
      db1.storedDoc = saveToFile db1.papers := by
  intro db p db1 h
  by_cases hh : jsonHashable p.title = true
  · unfold save_paper at h
    rw [if_pos hh] at h
    rw [Option.some_inj] at h
    subst h
    refine ⟨?_, alookup_aupsert_self _ _ _, rfl⟩
    unfold save_paper
    rw [if_pos hh]
    rw [Option.some_inj]
    have hre := aupsert_aupsert_self db.papers p.title p
    dsimp only
    rw [hre]
  · unfold save_paper at h
    rw [if_neg hh] at h
    exact absurd h (by simp)

/-- Witness for C8 at a concrete record and the empty store: the first
upsert produces the expected state and the second returns it unchanged. -/
theorem upsert_idempotent_witness :
    save_paper ⟨[], []⟩ c8paper =
      some ⟨[(Json.str "B", c8paper)], [toDictCvpr c8paper]⟩ ∧
    save_paper ⟨[(Json.str "B", c8paper)], [toDictCvpr c8paper]⟩ c8paper =
      some ⟨[(Json.str "B", c8paper)], [toDictCvpr c8paper]⟩ ∧
    alookup [(Json.str "B", c8paper)] c8paper.title = some c8paper :=
  ⟨rfl,
   (upsert_idempotent ⟨[], []⟩ c8paper ⟨[(Json.str "B", c8paper)], [toDictCvpr c8paper]⟩
     rfl).1,
   (upsert_idempotent ⟨[], []⟩ c8paper ⟨[(Json.str "B", c8paper)], [toDictCvpr c8paper]⟩
     rfl).2.1⟩

/-- One retry-consuming step: a triggering failure decrements total by one,
moves connect and read down by at most one, and keeps the forcelist. -/
lemma stepRetry_of_triggering (r : RetryState) (o : TransportOutcome)
    (hfl : r.statusForcelist = [500, 502, 503, 504])
    (ho : retryTriggering o = true) :
    ∃ r2, stepRetry r o = some r2 ∧ r2.total = r.total - 1 ∧
      r.connect - 1 ≤ r2.connect ∧ r.read - 1 ≤ r2.read ∧
      r2.statusForcelist = r.statusForcelist := by
  cases o with
  | resp code =>
    have hin : code ∈ r.statusForcelist := by
      rw [hfl]
      simpa [retryTriggering] using ho
    refine ⟨{ r with total := r.total - 1 }, ?_, rfl, ?_, ?_, rfl⟩
    · simp [stepRetry, if_pos hin]
    · dsimp only
      omega
    · dsimp only
      omega
  | connectErr =>
    refine ⟨{ r with total := r.total - 1, connect := r.connect - 1 }, rfl, rfl, ?_, ?_, rfl⟩
    · dsimp only
      omega
    · dsimp only
      omega
  | readErr =>
    refine ⟨{ r with total := r.total - 1, read := r.read - 1 }, rfl, rfl, ?_, ?_, rfl⟩
    · dsimp only
      omega
    · dsimp only
      omega

/-- On a transport that always fails with a retry-triggering outcome, a
Retry state with total = t and the other counters at least t makes exactly
t + 1 further attempts and then reports exhaustion. -/
lemma runSession_always_fail (o : TransportOutcome) (ho : retryTriggering o = true) :
    ∀ (t fuel n : Nat) (r : RetryState),
      r.statusForcelist = [500, 502, 503, 504] →
      r.total = (t : Int) → (t : Int) ≤ r.connect → (t : Int) ≤ r.read →
      t + 1 ≤ fuel →
      runSession fuel r (fun _ => o) n = (n + t + 1, false) := by
  intro t
  induction t with
  | zero =>
    intro fuel n r hfl htot hc hr hfuel
    obtain ⟨f, rfl⟩ : ∃ f, fuel = f + 1 := ⟨fuel - 1, by omega⟩
    obtain ⟨r2, hstep, h1, h2, h3, h4⟩ := stepRetry_of_triggering r o hfl ho
    have hex : r2.isExhausted = true := by
      simp only [RetryState.isExhausted, Bool.or_eq_true, decide_eq_true_eq]
      left; left
      omega
    simp only [runSession, hstep, hex, if_true]
  | succ s ih =>
    intro fuel n r hfl htot hc hr hfuel
    obtain ⟨f, rfl⟩ : ∃ f, fuel = f + 1 := ⟨fuel - 1, by omega⟩
    obtain ⟨r2, hstep, h1, h2, h3, h4⟩ := stepRetry_of_triggering r o hfl ho
    have hex : r2.isExhausted = false := by
      simp only [RetryState.isExhausted, Bool.or_eq_false_iff, decide_eq_false_iff_not,
        not_lt]
      refine ⟨⟨?_, ?_⟩, ?_⟩ <;> omega
    simp only [runSession, hstep, hex]
    rw [if_neg (by simp)]
    have hih := ih f (n + 1) r2 (h4.trans hfl) (by omega) (by omega) (by omega) (by omega)
    rw [hih]
    exact congrArg (fun m => (m, false)) (by omega)

/-- C6: against a transport that always fails with a connect error, a read
error, or a forcelisted server status, RetryingSession makes exactly
retries + 1 attempts (the initial attempt plus the configured retries,
default 3) and then the failure propagates to the caller. -/
theorem retry_bound :
    ∀ (retries : Nat) (o : TransportOutcome) (fuel : Nat),
      retryTriggering o = true → retries + 1 ≤ fuel →
      runSession fuel (mkRetryState retries) (fun _ => o) 0 = (retries + 1, false) := by
  intro R o fuel ho hf
  have h := runSession_always_fail o ho R fuel 0 (mkRetryState R) rfl rfl
    (le_refl _) (le_refl _) hf
  simpa using h

/-- Witness for C6 with the default three retries: four attempts for each
failure class, then the propagated failure. -/
theorem retry_bound_witness :
    retryTriggering TransportOutcome.connectErr = true ∧
    runSession 4 (mkRetryState 3) (fun _ => TransportOutcome.connectErr) 0 = (4, false) ∧
    runSession 5 (mkRetryState 3) (fun _ => TransportOutcome.readErr) 0 = (4, false) ∧
    runSession 6 (mkRetryState 3) (fun _ => TransportOutcome.resp 503) 0 = (4, false) :=
  ⟨by decide,
   retry_bound 3 TransportOutcome.connectErr 4 (by decide) (by decide),
   retry_bound 3 TransportOutcome.readErr 5 (by decide) (by decide),
   retry_bound 3 (TransportOutcome.resp 503) 6 (by decide) (by decide)⟩

/-- C4 as amended: the chain fires the patterns in declared order — a
firing JSON-LD pattern pre-empts the rest, the meta pattern is consulted
only after it, and the DOM sweep decides only when both earlier patterns
declined; a JSON-LD value that is non-empty after cleanup is returned by
fetch_doi_abstract whatever the later patterns hold, and when every pattern
declines and the Crossref fallback yields nothing the field is absent.
However, a pattern can fire with a value that cleans to empty, in which
case the chain stops and the field comes out absent even though a later
pattern would have produced a non-empty value — see the counterexample. -/
theorem extraction_chain_priority :
    (∀ (p : NPage) (s : String), stratLd p = some s → chainAbstract p = some s) ∧
    (∀ (p : NPage) (s : String), stratLd p = none → stratMeta p = some s →
      chainAbstract p = some s) ∧
    (∀ p : NPage, stratLd p = none → stratMeta p = none →
      chainAbstract p = stratDom p) ∧
    (∀ (doi : String) (p : NPage) (cref : Option (Option String)) (s : String),
      isOriginalPaper p.dcTypeElem = true → stratLd p = some s → s ≠ "" →
      natureFetchDoiAbstract doi (some p) cref = some (s, p.authors)) ∧
    (∀ (doi : String) (p : NPage) (cref : Option (Option String)),
      isOriginalPaper p.dcTypeElem = true → stratLd p = none → stratMeta p = none →
      stratDom p = none → crossrefFallback doi cref = none →
      natureFetchDoiAbstract doi (some p) cref = none) := by
  have hchain1 : ∀ (p : NPage) (s : String), stratLd p = some s →
      chainAbstract p = some s := by
    intro p s h
    simp only [chainAbstract, ABSTRACT_PATTERNS, runChain, tryPattern, h]
  have hchain2 : ∀ (p : NPage) (s : String), stratLd p = none → stratMeta p = some s →
      chainAbstract p = some s := by
    intro p s h1 h2
    simp only [chainAbstract, ABSTRACT_PATTERNS, runChain, tryPattern, h1, h2]
  have hchain3 : ∀ p : NPage, stratLd p = none → stratMeta p = none →
      chainAbstract p = stratDom p := by
    intro p h1 h2
    simp only [chainAbstract, ABSTRACT_PATTERNS, runChain, tryPattern, h1, h2]
    cases hd : stratDom p <;> simp [hd]
  refine ⟨hchain1, hchain2, hchain3, ?_, ?_⟩
  · intro doi p cref s hO hld hne
    simp only [natureFetchDoiAbstract]
    rw [if_pos hO, hchain1 p s hld]
    simp only [if_neg hne]
  · intro doi p cref hO hld hmeta hdom hcr
    simp only [natureFetchDoiAbstract]
    rw [if_pos hO, hchain3 p hld hmeta, hdom]
    simp only [hcr]

/-- Witness for the amended C4: on the concrete page whose JSON-LD block
and DOM container both hold values, fetch_doi_abstract returns the
structured value. -/
theorem extraction_chain_priority_witness :
    stratLd c4pageLd = some "Structured abstract." ∧
    stratDom c4pageLd = some "Dom value." ∧
    natureFetchDoiAbstract "10.1/x" (some c4pageLd) none =
      some ("Structured abstract.", []) :=
  ⟨by decide, rfl,
   extraction_chain_priority.2.2.2.1 "10.1/x" c4pageLd none "Structured abstract."
     (by decide) (by decide) (by decide)⟩

/-- C4 counterexample: on a page whose meta description is a single space
and whose DOM container holds a real abstract, the meta pattern fires with
an empty cleaned value, the chain stops there, and fetch_doi_abstract
returns no field — although the DOM strategy would have yielded a non-empty
value, contradicting the claim that only exhaustion of all strategies
yields an absent field. -/
theorem extraction_chain_cex :
    stratMeta c4page = some "" ∧
    stratDom c4page = some "The real abstract text." ∧
    chainAbstract c4page = some "" ∧
    natureFetchDoiAbstract "10.1/x" (some c4page) none = none :=
  ⟨by decide, rfl, by decide, by decide⟩

/-- C9 as amended: in the nature collector the Crossref fallback is dead
code whenever any page-level pattern fired — the result does not depend on
the Crossref response — and no minimum-length check guards it (see the
counterexample); the 200-character minimum lives in the science collector,
whose Crossref-based fetch_doi_abstract never returns an abstract shorter
than 200 characters or an empty author list. -/
theorem crossref_fallback_gating :
    (∀ (doi : String) (p : NPage) (cref1 cref2 : Option (Option String)) (s : String),
      chainAbstract p = some s →
      natureFetchDoiAbstract doi (some p) cref1 =
        natureFetchDoiAbstract doi (some p) cref2) ∧
    (∀ (d : String) (resp : Option Json) (a : String) (au : List String),
      scienceFetchDoiAbstract d resp = PyResult.ok (some (a, au)) →
      200 ≤ a.length ∧ au ≠ []) := by
  constructor
  · intro doi p cref1 cref2 s hs
    simp only [natureFetchDoiAbstract]
    by_cases hO : isOriginalPaper p.dcTypeElem = true
    · rw [if_pos hO, if_pos hO, hs]
    · rw [if_neg hO, if_neg hO]
  · intro d resp a au h
    have hmsg : ∀ (mfs : JsonObj),
        scienceFromMessage mfs = PyResult.ok (some (a, au)) →
        200 ≤ a.length ∧ au ≠ [] := by
      intro mfs hm
      unfold scienceFromMessage at hm
      repeat' split at hm
      all_goals simp only [PyResult.ok.injEq, Option.some.injEq,
        Prod.mk.injEq, reduceCtorEq] at hm
      rename_i hgate
      obtain ⟨ha, hau2⟩ := hm
      subst ha
      subst hau2
      simp only [Bool.or_eq_true, decide_eq_true_eq, List.isEmpty_iff,
        not_or, not_lt] at hgate
      exact ⟨hgate.2, hgate.1.2⟩
    unfold scienceFetchDoiAbstract at h
    split at h
    · exact absurd h (by simp)
    · split at h
      · exact absurd h (by simp)
      · split at h
        · split at h
          · exact hmsg _ h
          · exact absurd h (by simp)
        · exact absurd h (by simp)

/-- C9 counterexample: with every page-level pattern failing and a Crossref
response whose abstract is the two-character string 'Hi', the nature
fetch_doi_abstract returns that short text — there is no minimum-length
check on the fallback, contradicting the claim that a below-minimum result
yields None. -/
theorem crossref_fallback_cex :
    chainAbstract c9pageAllFail = none ∧
    natureFetchDoiAbstract "10.1/x" (some c9pageAllFail) (some (some "Hi")) =
      some ("Hi", []) ∧
    ("Hi" : String).length < 200 :=
  ⟨rfl, by decide, by decide⟩

set_option maxRecDepth 100000 in
/-- Witness for the amended C9: the Crossref response is irrelevant once a
page pattern fired, and the science fetch at a concrete well-formed
response returns an abstract of at least 200 characters with a non-empty
author list. -/
theorem crossref_fallback_gating_witness :
    chainAbstract c9pageMeta = some "Meta abstract." ∧
    natureFetchDoiAbstract "10.1/x" (some c9pageMeta) (some (some "Hi")) =
      natureFetchDoiAbstract "10.1/x" (some c9pageMeta) none ∧
    scienceFetchDoiAbstract "10.1234/abc" (some c9sciResp) =
      PyResult.ok (some (c9longAbstract, ["Ann He"])) ∧
    200 ≤ c9longAbstract.length ∧
    (["Ann He"] : List String) ≠ [] :=
  ⟨rfl,
   crossref_fallback_gating.1 "10.1/x" c9pageMeta (some (some "Hi")) none
     "Meta abstract." rfl,
   by decide,
   (crossref_fallback_gating.2 "10.1234/abc" (some c9sciResp) c9longAbstract
     ["Ann He"] (by decide)).1,
   (crossref_fallback_gating.2 "10.1234/abc" (some c9sciResp) c9longAbstract
     ["Ann He"] (by decide)).2⟩
